import Mathlib

/-!
Shallow embedding of `src/server.py` (AfiyahMed AI skin-diagnosis server).

Input text is modelled as `List Char`.  Python `json.loads` is modelled by an
executable recursive-descent parser over the JSON grammar that CPython's `json`
module accepts (objects, arrays, strings with escapes, numbers with fraction
and exponent, the `NaN`/`Infinity` extensions, `true`/`false`/`null`), with
duplicate object keys resolved last-wins as Python dicts do.  Machine-level
divergences that no claim touches (int vs float identity of numerals, lone
surrogate escapes, the CPython recursion limit on pathologically deep nesting)
are noted where they arise.

A crucial source detail: the fence markers in `parse_gemini_response` are the
Python string literals "\`\`\`json" and "\`\`\`".  A backslash before a
backtick is not a recognized Python escape, so Python keeps both characters:
the markers the code actually searches for are the six-character sequence
backslash-backtick repeated three times (optionally followed by "json"), not a
plain triple backtick.
-/

namespace AfiyahMed

set_option maxRecDepth 100000

/-- The backtick character (U+0060). -/
def backtickChar : Char := Char.ofNat 96

/-- The opening-brace character (U+007B). -/
def openBrace : Char := Char.ofNat 123

/-- The closing-brace character (U+007D). -/
def closeBrace : Char := Char.ofNat 125

/-- Whitespace stripped by Python `str.strip()` (ASCII portion; the inputs the
source handles are ASCII-whitespace delimited). -/
def pySpace (c : Char) : Bool :=
  c = ' ' || c = '\t' || c = '\n' || c = '\x0d' || c = Char.ofNat 11 || c = Char.ofNat 12

/-- Python `str.strip()`: drop leading and trailing whitespace. -/
def pyStrip (s : List Char) : List Char :=
  ((s.dropWhile pySpace).reverse.dropWhile pySpace).reverse

/-- JSON whitespace accepted between tokens by `json.loads`. -/
def jsonWsChar (c : Char) : Bool :=
  c = ' ' || c = '\t' || c = '\n' || c = '\x0d'

/-- Skip JSON whitespace. -/
def skipWs (s : List Char) : List Char := s.dropWhile jsonWsChar

/-- Index of the first occurrence of `pat` as a contiguous sublist of `s`
(leftmost match, as Python `str.find` / `str.split` locate it). -/
def findPat (pat : List Char) : List Char → Option Nat
  | [] => if pat.isEmpty then some 0 else none
  | c :: cs =>
    if pat.isPrefixOf (c :: cs) then some 0
    else (findPat pat cs).map (· + 1)

/-- Python `pat in s` for strings. -/
def containsPat (pat s : List Char) : Bool := (findPat pat s).isSome

/-- Content strictly before the first occurrence of `pat`
(Python `s.split(pat)[0]`). -/
def takeUntilPat (pat s : List Char) : List Char :=
  match findPat pat s with
  | some i => s.take i
  | none => s

/-- Content strictly after the first occurrence of `pat`. -/
def dropThroughPat (pat s : List Char) : List Char :=
  match findPat pat s with
  | some i => s.drop (i + pat.length)
  | none => s

/-- The fence marker the source actually searches for: the Python literal
"\`\`\`" keeps its backslashes, so this is backslash-backtick three times. -/
def fenceMarker : List Char :=
  ['\\', backtickChar, '\\', backtickChar, '\\', backtickChar]

/-- The tagged fence marker, the Python literal "\`\`\`json". -/
def fenceJsonMarker : List Char := fenceMarker ++ ['j', 's', 'o', 'n']

/-- Lines 50–54 of `server.py`: if the (escaped-backtick) tagged marker occurs,
take `split("\`\`\`json")[1].split("\`\`\`")[0].strip()`; else if the plain
marker occurs, take `split("\`\`\`")[1].split("\`\`\`")[0].strip()`; else keep
the text.  `split(p)[1]` is the content after the first occurrence of `p`, and
the subsequent `split(q)[0]` cuts it at the first occurrence of `q`; since the
plain marker is a prefix of the tagged one, cutting at the first plain-marker
occurrence inside the tail is exactly what the composition computes. -/
def fenceStrip (s : List Char) : List Char :=
  if containsPat fenceJsonMarker s then
    pyStrip (takeUntilPat fenceMarker (dropThroughPat fenceJsonMarker s))
  else if containsPat fenceMarker s then
    pyStrip (takeUntilPat fenceMarker (dropThroughPat fenceMarker s))
  else s

/-- Index of the last occurrence of character `c` (Python `str.rfind`). -/
def lastIdxOf (c : Char) (s : List Char) : Option Nat :=
  (findPat [c] s.reverse).map (fun j => s.length - 1 - j)

/-- Lines 56–61: slice from the first `{` to the last `}` inclusive when both
exist (Python `response_text[start_idx:end_idx + 1]`), otherwise keep the
text.  Nat truncation in `take` matches Python's empty slice when the last `}`
precedes the first `{`. -/
def braceSlice (s : List Char) : List Char :=
  match findPat [openBrace] s, lastIdxOf closeBrace s with
  | some i, some j => (s.drop i).take (j + 1 - i)
  | _, _ => s

/-- Lines 49–63: the full text-cleaning stage of `parse_gemini_response`
before `json.loads` (fence handling, brace slice, final `strip()`). -/
def extractText (s : List Char) : List Char :=
  pyStrip (braceSlice (fenceStrip s))

/-- JSON values as produced by Python `json.loads`.  Numbers are represented
exactly as `mantissa * 10 ^ exp10`; the int/float distinction of Python
numerals is not tracked (no claim depends on it).  Object fields are kept in
dict insertion order with unique keys (duplicates resolved last-wins at parse
time, as Python dicts do). -/
inductive Json where
  | null
  | jbool (b : Bool)
  | num (mantissa : Int) (exp10 : Int)
  | inf (neg : Bool)
  | nan
  | str (s : String)
  | arr (elems : List Json)
  | obj (fields : List (String × Json))

/-- Hex digit value, for `\uXXXX` escapes. -/
def hexVal (c : Char) : Option Nat :=
  if c.isDigit then some (c.toNat - 48)
  else if 'a' ≤ c && c ≤ 'f' then some (c.toNat - 87)
  else if 'A' ≤ c && c ≤ 'F' then some (c.toNat - 55)
  else none

/-- Combine four hex digits. -/
def hex4 (a b c d : Char) : Option Nat := do
  let x1 ← hexVal a
  let x2 ← hexVal b
  let x3 ← hexVal c
  let x4 ← hexVal d
  pure (((x1 * 16 + x2) * 16 + x3) * 16 + x4)

/-- One-character JSON string escapes. -/
def simpleEsc (c : Char) : Option Char :=
  if c = '"' then some '"'
  else if c = '\\' then some '\\'
  else if c = '/' then some '/'
  else if c = 'b' then some (Char.ofNat 8)
  else if c = 'f' then some (Char.ofNat 12)
  else if c = 'n' then some '\n'
  else if c = 'r' then some '\x0d'
  else if c = 't' then some '\t'
  else none

/-- Parse the body of a JSON string after the opening quote, returning the
decoded characters and the rest after the closing quote.  Strict mode as in
`json.loads`: unescaped control characters are rejected, unknown escapes are
rejected.  Surrogate pairs in `\uXXXX` escapes are combined; a lone surrogate
(accepted by CPython, unrepresentable as a Lean `Char`) decodes through
`Char.ofNat`'s fallback — no claim exercises that corner. -/
def parseStringBody : Nat → List Char → Option (List Char × List Char)
  | 0, _ => none
  | _, [] => none
  | fuel + 1, c :: cs =>
    if c = '"' then some ([], cs)
    else if c = '\\' then
      match cs with
      | [] => none
      | 'u' :: h1 :: h2 :: h3 :: h4 :: cs2 =>
        match hex4 h1 h2 h3 h4 with
        | none => none
        | some n =>
          if 0xd800 ≤ n && n < 0xdc00 then
            match cs2 with
            | '\\' :: 'u' :: k1 :: k2 :: k3 :: k4 :: cs3 =>
              match hex4 k1 k2 k3 k4 with
              | some m =>
                if 0xdc00 ≤ m && m < 0xe000 then
                  (parseStringBody fuel cs3).map (fun p =>
                    (Char.ofNat (0x10000 + (n - 0xd800) * 0x400 + (m - 0xdc00)) :: p.1, p.2))
                else
                  -- lone high surrogate: the second escape is left in place and
                  -- re-scanned on the next iteration, as CPython's scanner does
                  (parseStringBody fuel cs2).map (fun p => (Char.ofNat n :: p.1, p.2))
              | none => none
            | _ => (parseStringBody fuel cs2).map (fun p => (Char.ofNat n :: p.1, p.2))
          else
            (parseStringBody fuel cs2).map (fun p => (Char.ofNat n :: p.1, p.2))
      | e :: cs2 =>
        match simpleEsc e with
        | some ch => (parseStringBody fuel cs2).map (fun p => (ch :: p.1, p.2))
        | none => none
    else if c.toNat < 32 then none
    else (parseStringBody fuel cs).map (fun p => (c :: p.1, p.2))

/-- JSON string body with sufficient fuel (each step consumes a character). -/
def parseJString (s : List Char) : Option (List Char × List Char) :=
  parseStringBody (s.length + 1) s

/-- Numeric value of a digit string. -/
def natFromDigits (ds : List Char) : Nat :=
  ds.foldl (fun a c => a * 10 + (c.toNat - 48)) 0

/-- After the integer part `ip` of a JSON number, consume an optional fraction
and exponent exactly as CPython's `NUMBER_RE` does: `\.\d+` and `[eE][-+]?\d+`
each match as a whole or not at all (so `"1."` or `"1e"` leave the `.`/`e`
unconsumed).  Returns mantissa and base-10 exponent plus the rest. -/
def numTail (ip : Nat) (s : List Char) : (Nat × Int) × List Char :=
  let fr : (Nat × Int) × List Char :=
    match s with
    | '.' :: cs =>
      let p := List.span Char.isDigit cs
      if p.1.isEmpty then ((ip, 0), s)
      else ((ip * 10 ^ p.1.length + natFromDigits p.1, -(p.1.length : Int)), p.2)
    | _ => ((ip, 0), s)
  match fr.2 with
  | c :: cs =>
    if c = 'e' || c = 'E' then
      match cs with
      | '+' :: cs2 =>
        let p := List.span Char.isDigit cs2
        if p.1.isEmpty then fr else ((fr.1.1, fr.1.2 + natFromDigits p.1), p.2)
      | '-' :: cs2 =>
        let p := List.span Char.isDigit cs2
        if p.1.isEmpty then fr else ((fr.1.1, fr.1.2 - natFromDigits p.1), p.2)
      | _ =>
        let p := List.span Char.isDigit cs
        if p.1.isEmpty then fr else ((fr.1.1, fr.1.2 + natFromDigits p.1), p.2)
    else fr
  | [] => fr

/-- Wrap a parsed number with its sign. -/
def wrapNum (neg : Bool) (ip : Nat) (rest : List Char) : Option (Json × List Char) :=
  let r := numTail ip rest
  some (Json.num (if neg then -(r.1.1 : Int) else (r.1.1 : Int)) r.1.2, r.2)

/-- Literal keyword matching. -/
def expectLit (pat s : List Char) : Option (List Char) :=
  if pat.isPrefixOf s then some (s.drop pat.length) else none

/-- Replace the value at key `k` keeping its position, or append — Python
dict update semantics during object construction. -/
def setKey : List (String × Json) → String → Json → List (String × Json)
  | [], k, v => [(k, v)]
  | (k0, v0) :: fs, k, v =>
    if k0 = k then (k0, v) :: fs else (k0, v0) :: setKey fs k v

/-- Fold raw member list into a Python dict (insertion order, last-wins). -/
def buildDict (ps : List (String × Json)) : List (String × Json) :=
  ps.foldl (fun acc p => setKey acc p.1 p.2) []

/-- Dispatch on the first non-whitespace character of a JSON value; the
object-member and array-element sub-parsers are passed in (they are the
fuel-decremented recursive parsers). -/
def parseDispatch (pm : List Char → Option (List (String × Json) × List Char))
    (pe : List Char → Option (List Json × List Char))
    (c : Char) (cs : List Char) : Option (Json × List Char) :=
      if c = openBrace then
        match skipWs cs with
        | [] => none
        | c2 :: r =>
          if c2 = closeBrace then some (Json.obj [], r)
          else
            match pm cs with
            | some (fs, rest) => some (Json.obj (buildDict fs), rest)
            | none => none
      else if c = '[' then
        match skipWs cs with
        | [] =>
          match pe cs with
          | some (xs, rest) => some (Json.arr xs, rest)
          | none => none
        | c2 :: r =>
          if c2 = ']' then some (Json.arr [], r)
          else
            match pe cs with
            | some (xs, rest) => some (Json.arr xs, rest)
            | none => none
      else if c = '"' then
        (parseJString cs).map (fun p => (Json.str (String.mk p.1), p.2))
      else if c = 't' then
        (expectLit ['r', 'u', 'e'] cs).map (fun r => (Json.jbool true, r))
      else if c = 'f' then
        (expectLit ['a', 'l', 's', 'e'] cs).map (fun r => (Json.jbool false, r))
      else if c = 'n' then
        (expectLit ['u', 'l', 'l'] cs).map (fun r => (Json.null, r))
      else if c = 'N' then
        (expectLit ['a', 'N'] cs).map (fun r => (Json.nan, r))
      else if c = 'I' then
        (expectLit ['n', 'f', 'i', 'n', 'i', 't', 'y'] cs).map (fun r => (Json.inf false, r))
      else if c = '-' then
        if List.isPrefixOf ['I', 'n', 'f', 'i', 'n', 'i', 't', 'y'] cs then
          some (Json.inf true, cs.drop 8)
        else
          match cs with
          | [] => none
          | d :: cs2 =>
            if d = '0' then wrapNum true 0 cs2
            else if d.isDigit then
              let p := List.span Char.isDigit cs2
              wrapNum true (natFromDigits (d :: p.1)) p.2
            else none
      else if c = '0' then wrapNum false 0 cs
      else if c.isDigit then
        let p := List.span Char.isDigit cs
        wrapNum false (natFromDigits (c :: p.1)) p.2
      else none

mutual

/-- Recursive-descent JSON value, fuel-indexed; mirrors what `json.loads`
accepts (including the `NaN`/`Infinity`/`-Infinity` extensions). -/
def parseValue : Nat → List Char → Option (Json × List Char)
  | 0, _ => none
  | fuel + 1, s =>
    match skipWs s with
    | [] => none
    | c :: cs => parseDispatch (parseMembers fuel) (parseElems fuel) c cs

/-- One or more `"key": value` members, positioned after `{` or `,`. -/
def parseMembers : Nat → List Char → Option (List (String × Json) × List Char)
  | 0, _ => none
  | fuel + 1, s =>
    match skipWs s with
    | [] => none
    | cq :: cs =>
      if cq = '"' then
        match parseJString cs with
        | some (key, r1) =>
          match skipWs r1 with
          | [] => none
          | cc :: r2 =>
            if cc = ':' then
              match parseValue fuel r2 with
              | some (v, r3) =>
                match skipWs r3 with
                | [] => none
                | cb :: r4 =>
                  if cb = ',' then
                    (parseMembers fuel r4).map (fun p => ((String.mk key, v) :: p.1, p.2))
                  else if cb = closeBrace then some ([(String.mk key, v)], r4)
                  else none
              | none => none
            else none
        | none => none
      else none

/-- One or more array elements, positioned after `[` or `,`. -/
def parseElems : Nat → List Char → Option (List Json × List Char)
  | 0, _ => none
  | fuel + 1, s =>
    match parseValue fuel s with
    | some (v, r1) =>
      match skipWs r1 with
      | [] => none
      | cb :: r2 =>
        if cb = ',' then (parseElems fuel r2).map (fun p => (v :: p.1, p.2))
        else if cb = ']' then some ([v], r2)
        else none
    | none => none

end

/-- Python `json.loads`: one JSON document, optionally surrounded by JSON
whitespace, nothing else.  The fuel `2 * length + 4` dominates the recursion
depth (each unit of nesting or element consumes at least one character and
costs at most two fuel ticks), so fuel exhaustion never causes a spurious
failure.  (CPython instead raises `RecursionError` past its recursion limit on
~1000-deep nesting; no claim reaches that regime.) -/
def json_loads (s : List Char) : Option Json :=
  match parseValue (2 * s.length + 4) s with
  | some (v, rest) => if skipWs rest = [] then some v else none
  | none => none

/-- Python exceptions that the validation stage can raise.  `jsonDecodeError`
and `valueError` are the ones `parse_gemini_response` catches (note that
`json.JSONDecodeError` subclasses `ValueError`, and the decode handler comes
first); `typeError` and `keyError` escape it.  Exception message texts follow
CPython's wording where it matters to none of the claims. -/
inductive PyErr where
  | jsonDecodeError
  | valueError (msg : String)
  | typeError (msg : String)
  | keyError (k : String)

/-- The five required fields checked at line 70 of `server.py`, in order. -/
def requiredFields : List String :=
  ["top_3_possible_diseases", "explanation", "urgency", "recommended_next_steps", "disclaimer"]

/-- Python membership `needle in v` for a decoded JSON value: key lookup on a
dict, element equality on a list (a `str` needle equals only `str` elements),
substring test on a string, and `TypeError` on non-container values. -/
def hasKeyB (fs : List (String × Json)) (f : String) : Bool :=
  fs.any (fun p => p.1 == f)

def pyContains (needle : String) : Json → Except PyErr Bool
  | Json.obj fs => Except.ok (hasKeyB fs needle)
  | Json.arr xs =>
    Except.ok (xs.any (fun x => match x with | Json.str t => t == needle | _ => false))
  | Json.str s => Except.ok (containsPat needle.data s.data)
  | _ => Except.error (PyErr.typeError "argument of type is not iterable")

/-- Python subscript `v[k]` with a string key: dict lookup (missing key is a
`KeyError`), `TypeError` on anything else. -/
def pySubscript (v : Json) (k : String) : Except PyErr Json :=
  match v with
  | Json.obj fs =>
    match List.lookup k fs with
    | some w => Except.ok w
    | none => Except.error (PyErr.keyError k)
  | Json.str _ => Except.error (PyErr.typeError "string indices must be integers")
  | Json.arr _ => Except.error (PyErr.typeError "list indices must be integers or slices, not str")
  | _ => Except.error (PyErr.typeError "object is not subscriptable")

/-- Lines 71–74: the required-field loop; raises
`ValueError(f"Missing required field: \x7bfield\x7d")` at the first absent
field. -/
def checkFields : List String → Json → Except PyErr Unit
  | [], _ => Except.ok ()
  | f :: fs, v =>
    match pyContains f v with
    | Except.error e => Except.error e
    | Except.ok b =>
      if b then checkFields fs v
      else Except.error (PyErr.valueError ("Missing required field: " ++ f))

/-- Lines 79–81: per-disease check; `"name" not in d or "confidence" not in d`
with Python's left-to-right short-circuit evaluation. -/
def checkDiseases : List Json → Except PyErr Unit
  | [] => Except.ok ()
  | d :: ds =>
    match pyContains "name" d with
    | Except.error e => Except.error e
    | Except.ok hasName =>
      if !hasName then Except.error (PyErr.valueError "Disease missing name or confidence")
      else
        match pyContains "confidence" d with
        | Except.error e => Except.error e
        | Except.ok hasConf =>
          if !hasConf then Except.error (PyErr.valueError "Disease missing name or confidence")
          else checkDiseases ds

/-- Lines 70–84: validation of the decoded value, returning the value itself
(`return parsed`) on success. -/
def validate (v : Json) : Except PyErr Json :=
  match checkFields requiredFields v with
  | Except.error e => Except.error e
  | Except.ok _ =>
    match pySubscript v "top_3_possible_diseases" with
    | Except.error e => Except.error e
    | Except.ok top =>
      match top with
      | Json.arr xs =>
        if xs.isEmpty then Except.error (PyErr.valueError "Invalid diseases structure")
        else
          match checkDiseases xs with
          | Except.error e => Except.error e
          | Except.ok _ => Except.ok v
      | _ => Except.error (PyErr.valueError "Invalid diseases structure")

/-- The observable outcome of `parse_gemini_response`: a parsed record, the
`None` return (recording which caught exception produced it), or an exception
escaping the function. -/
inductive ParseOutcome where
  | success (v : Json)
  | failure (e : PyErr)
  | uncaught (e : PyErr)

/-- How the `try`/`except` of lines 49–92 disposes of the validation result:
a raised `ValueError` is caught and turned into the `None` return, while
`TypeError`/`KeyError` (not subclasses of `ValueError`) escape. -/
def outcomeOfValidate : Except PyErr Json → ParseOutcome
  | Except.ok w => ParseOutcome.success w
  | Except.error (PyErr.valueError m) => ParseOutcome.failure (PyErr.valueError m)
  | Except.error e => ParseOutcome.uncaught e

/-- `parse_gemini_response` (lines 44–92): clean the text, `json.loads` it
(parse failure is caught as `json.JSONDecodeError` → `None`), validate. -/
def parse_gemini_response (s : List Char) : ParseOutcome :=
  match json_loads (extractText s) with
  | none => ParseOutcome.failure PyErr.jsonDecodeError
  | some v => outcomeOfValidate (validate v)

/-- The fixed disclaimer string. -/
def DISCLAIMER : String := "This is an AI-based suggestion, not a medical diagnosis."

/-- Lines 136–150: the record returned when `parse_gemini_response` gives
`None`. -/
def errorRecord : Json :=
  Json.obj [
    ("top_3_possible_diseases",
      Json.arr [Json.obj [("name", Json.str "Analysis Error"), ("confidence", Json.num 0 0)]]),
    ("explanation",
      Json.str "Unable to analyze the image. Please try again with a clearer image."),
    ("urgency", Json.str "Low"),
    ("recommended_next_steps",
      Json.arr [
        Json.str "Ensure the image is clear and well-lit",
        Json.str "Try uploading a different image",
        Json.str "Consult a dermatologist directly"]),
    ("disclaimer", Json.str DISCLAIMER)]

/-- The fixed fallback vocabulary of line 160. -/
def diseaseNames : List String :=
  ["Eczema", "Psoriasis", "Dermatitis", "Rosacea", "Fungal Infection"]

/-- Python `round` (banker's rounding, half to even) of the exact rational
`a / b`, in integer arithmetic.  In the fallback's range (`a = p * 100` with
`20 ≤ p ≤ 50`, `60 ≤ b ≤ 150`) the float expression `p * 100 / b` the source
rounds is within strictly less than `1/(2*b)` of a half-integer only when it
equals one exactly (and exact halves at these scales are representable
doubles), so rounding the exact rational half-to-even agrees with CPython's
`round` on the float. -/
def pyRound (a b : Nat) : Nat :=
  if b = 0 then 0
  else
    let q := a / b
    let r := a % b
    if b < 2 * r then q + 1
    else if 2 * r < b then q
    else if q % 2 = 0 then q else q + 1

/-- Line 164: one normalized percentage, `round(p * 100 / total)`. -/
def fbRound (p total : Nat) : Int := pyRound (p * 100) total

/-- Line 165: `diff = 100 - sum(percentages)`. -/
def fbDiff (p1 p2 p3 : Nat) : Int :=
  100 - (fbRound p1 (p1 + p2 + p3) + fbRound p2 (p1 + p2 + p3) + fbRound p3 (p1 + p2 + p3))

/-- Lines 166–167: the first percentage after the conditional correction
`percentages[0] += diff`. -/
def fbConf1 (p1 p2 p3 : Nat) : Int :=
  if fbDiff p1 p2 p3 ≠ 0 then fbRound p1 (p1 + p2 + p3) + fbDiff p1 p2 p3
  else fbRound p1 (p1 + p2 + p3)

/-- Lines 160–186: the fallback record.  The shuffled name list and the three
`random.randint(20, 50)` draws are passed in as oracle parameters; names are
read at indices 0–2 of the shuffled five-element list. -/
def fallbackRecord (symptoms : String) (names : List String) (p1 p2 p3 : Nat) : Json :=
  Json.obj [
    ("top_3_possible_diseases",
      Json.arr [
        Json.obj [("name", Json.str (names.getD 0 "")),
          ("confidence", Json.num (fbConf1 p1 p2 p3) 0)],
        Json.obj [("name", Json.str (names.getD 1 "")),
          ("confidence", Json.num (fbRound p2 (p1 + p2 + p3)) 0)],
        Json.obj [("name", Json.str (names.getD 2 "")),
          ("confidence", Json.num (fbRound p3 (p1 + p2 + p3)) 0)]]),
    ("explanation",
      Json.str ("Based on the uploaded image and your reported symptoms ("
        ++ symptoms ++ "), these are the most likely skin conditions.")),
    ("urgency", Json.str "Moderate"),
    ("recommended_next_steps",
      Json.arr [
        Json.str "Keep the affected area clean and dry.",
        Json.str "Avoid harsh soaps or chemicals.",
        Json.str "Consult a certified dermatologist for a detailed examination."]),
    ("disclaimer", Json.str DISCLAIMER)]

/-- The external-model boundary, as an oracle: Gemini disabled (no import),
the `generate_content` call raising, or returning response text. -/
inductive GeminiOutcome where
  | disabled
  | raises (msg : String)
  | responds (text : List Char)

/-- What `/predict_json` hands to the HTTP layer: a 200 response whose body is
`\x7b"prediction": v\x7d`, or a raised `HTTPException`. -/
inductive PredictResult where
  | ok (prediction : Json)
  | httpError (status : Nat) (detail : String)

/-- Message of an escaping validation exception as embedded in the 500 detail. -/
def errText : PyErr → String
  | PyErr.jsonDecodeError => "JSONDecodeError"
  | PyErr.valueError m => m
  | PyErr.typeError m => m
  | PyErr.keyError k => k

/-- `predict_json` (lines 96–189).  `b64ok` is the oracle for
`base64.b64decode` succeeding; a failure propagates to the outer handler and
becomes a 500.  When Gemini is enabled, any exception inside the inner `try`
(a failing `generate_content` call, or a `TypeError` escaping
`parse_gemini_response`) is wrapped as `HTTPException(500, "Gemini API error:
...")`, which the outer `except Exception` catches and re-raises as a 500;
only the 500 status is claim-relevant, the detail text is carried loosely. -/
def predict_json (symptoms : String) :
    Bool → GeminiOutcome → List String → Nat → Nat → Nat → PredictResult
  | false, _, _, _, _, _ =>
    PredictResult.httpError 500 "Invalid base64-encoded string"
  | true, GeminiOutcome.raises msg, _, _, _, _ =>
    PredictResult.httpError 500 ("Gemini API error: " ++ msg)
  | true, GeminiOutcome.responds text, _, _, _, _ =>
    match parse_gemini_response text with
    | ParseOutcome.success v => PredictResult.ok v
    | ParseOutcome.failure _ => PredictResult.ok errorRecord
    | ParseOutcome.uncaught e =>
      PredictResult.httpError 500 ("Gemini API error: " ++ errText e)
  | true, GeminiOutcome.disabled, names, p1, p2, p3 =>
    PredictResult.ok (fallbackRecord symptoms names p1 p2 p3)

/-- Field lookup on a record (dict access on the decoded value). -/
def jlookup (v : Json) (k : String) : Option Json :=
  match v with
  | Json.obj fs => List.lookup k fs
  | _ => none

/-- The candidates list of a record, as read from the boundary JSON. -/
def candList (v : Json) : List Json :=
  match jlookup v "top_3_possible_diseases" with
  | some (Json.arr xs) => xs
  | _ => []

/-- The confidence number of one candidate (0 on shape mismatch). -/
def confOf (d : Json) : Int :=
  match jlookup d "confidence" with
  | some (Json.num m _) => m
  | _ => 0

/-- The name string of one candidate. -/
def nameOf (d : Json) : Option String :=
  match jlookup d "name" with
  | some (Json.str s) => some s
  | _ => none

/-- The DiagnosisRecord invariant of the spec's data model: all five fields
present and a non-empty candidates list. -/
def recordOk (v : Json) : Bool :=
  requiredFields.all (fun f => (jlookup v f).isSome) &&
  match jlookup v "top_3_possible_diseases" with
  | some (Json.arr (_ :: _)) => true
  | _ => false

/-- One candidate of the shape the validation loop accepts without raising:
a dict with both a `name` and a `confidence` key. -/
def elemObjOk (d : Json) : Bool :=
  match d with
  | Json.obj gs => hasKeyB gs "name" && hasKeyB gs "confidence"
  | _ => false

/-- A decoded value that passes every check of lines 70–84: a dict with all
five required keys whose candidates entry is a non-empty list of well-shaped
candidate dicts.  Nothing here constrains the list to length 3. -/
def schemaNonEmpty (v : Json) : Bool :=
  match v with
  | Json.obj fs =>
    requiredFields.all (hasKeyB fs) &&
    match List.lookup "top_3_possible_diseases" fs with
    | some (Json.arr xs) => !xs.isEmpty && xs.all elemObjOk
    | _ => false
  | _ => false

/-- The example input of the spec (section 8): a schema-valid object in a real
markdown fence with prose on both sides. -/
def exampleFencedInput : String :=
  "Here you go:\n```json\n\x7b\"top_3_possible_diseases\":[\x7b\"name\":\"Eczema\",\"confidence\":80\x7d,\x7b\"name\":\"Psoriasis\",\"confidence\":15\x7d,\x7b\"name\":\"Rosacea\",\"confidence\":5\x7d],\"explanation\":\"x\",\"urgency\":\"Low\",\"recommended_next_steps\":[\"a\"],\"disclaimer\":\"d\"\x7d\n```\nLet me know if needed."

/-- The JSON object embedded in `exampleFencedInput`. -/
def exampleFencedObject : Json :=
  Json.obj [
    ("top_3_possible_diseases", Json.arr [
      Json.obj [("name", Json.str "Eczema"), ("confidence", Json.num 80 0)],
      Json.obj [("name", Json.str "Psoriasis"), ("confidence", Json.num 15 0)],
      Json.obj [("name", Json.str "Rosacea"), ("confidence", Json.num 5 0)]]),
    ("explanation", Json.str "x"),
    ("urgency", Json.str "Low"),
    ("recommended_next_steps", Json.arr [Json.str "a"]),
    ("disclaimer", Json.str "d")]

/-- A schema-valid object in a real markdown fence whose trailing prose
contains a stray closing brace. -/
def fencedWithStrayBrace : String :=
  "Here you go:\n```json\n\x7b\"top_3_possible_diseases\":[\x7b\"name\":\"Eczema\",\"confidence\":80\x7d,\x7b\"name\":\"Psoriasis\",\"confidence\":15\x7d,\x7b\"name\":\"Rosacea\",\"confidence\":5\x7d],\"explanation\":\"x\",\"urgency\":\"Low\",\"recommended_next_steps\":[\"a\"],\"disclaimer\":\"d\"\x7d\n```\nNote: braces like \x7d can appear in prose."

/-- A record with all five fields but only one candidate — the validation of
lines 76–81 accepts it. -/
def oneCandidateObject : Json :=
  Json.obj [
    ("top_3_possible_diseases",
      Json.arr [Json.obj [("name", Json.str "Eczema"), ("confidence", Json.num 100 0)]]),
    ("explanation", Json.str "x"),
    ("urgency", Json.str "Low"),
    ("recommended_next_steps", Json.arr [Json.str "a"]),
    ("disclaimer", Json.str "d")]

/-! ## Helper lemmas -/
/-! ## Helper lemmas -/

lemma mem_of_mem_pyStrip {c : Char} {s : List Char} (h : c ∈ pyStrip s) : c ∈ s := by
  unfold pyStrip at h
  rw [List.mem_reverse] at h
  have h2 := (List.dropWhile_sublist pySpace).subset h
  rw [List.mem_reverse] at h2
  exact (List.dropWhile_sublist pySpace).subset h2

lemma mem_of_mem_takeUntilPat {c : Char} {pat s : List Char}
    (h : c ∈ takeUntilPat pat s) : c ∈ s := by
  unfold takeUntilPat at h
  rcases hf : findPat pat s with _ | i <;> rw [hf] at h
  · exact h
  · exact (List.take_sublist _ _).subset h

lemma mem_of_mem_dropThroughPat {c : Char} {pat s : List Char}
    (h : c ∈ dropThroughPat pat s) : c ∈ s := by
  unfold dropThroughPat at h
  rcases hf : findPat pat s with _ | i <;> rw [hf] at h
  · exact h
  · exact (List.drop_sublist _ _).subset h

lemma mem_of_mem_fenceStrip {c : Char} {s : List Char} (h : c ∈ fenceStrip s) : c ∈ s := by
  unfold fenceStrip at h
  split at h
  · exact mem_of_mem_dropThroughPat (mem_of_mem_takeUntilPat (mem_of_mem_pyStrip h))
  · split at h
    · exact mem_of_mem_dropThroughPat (mem_of_mem_takeUntilPat (mem_of_mem_pyStrip h))
    · exact h

lemma mem_of_mem_braceSlice {c : Char} {s : List Char} (h : c ∈ braceSlice s) : c ∈ s := by
  unfold braceSlice at h
  split at h
  · exact (List.drop_sublist _ _).subset ((List.take_sublist _ _).subset h)
  · exact h

lemma mem_of_mem_extractText {c : Char} {s : List Char} (h : c ∈ extractText s) : c ∈ s :=
  mem_of_mem_fenceStrip (mem_of_mem_braceSlice (mem_of_mem_pyStrip h))

lemma mem_of_mem_skipWs {c : Char} {s : List Char} (h : c ∈ skipWs s) : c ∈ s :=
  (List.dropWhile_sublist jsonWsChar).subset h

lemma lookup_isSome_of_hasKeyB {fs : List (String × Json)} {f : String}
    (h : hasKeyB fs f = true) : (List.lookup f fs).isSome = true := by
  induction fs with
  | nil => simp [hasKeyB] at h
  | cons p fs ih =>
    rcases p with ⟨k, v⟩
    rw [hasKeyB, List.any_cons] at h
    rcases Bool.or_eq_true_iff.mp h with h1 | h1
    · have : k = f := beq_iff_eq.mp h1
      subst this
      simp [List.lookup]
    · rw [List.lookup]
      by_cases he : f == k
      · simp [he]
      · simp only [he, Bool.false_eq_true, if_false]
        exact ih h1

lemma checkFields_ok_hasKey {L : List String} {fs : List (String × Json)}
    (h : checkFields L (Json.obj fs) = Except.ok ()) :
    ∀ f ∈ L, hasKeyB fs f = true := by
  induction L with
  | nil => intro f hf; cases hf
  | cons g L ih =>
    intro f hf
    rw [checkFields] at h
    simp only [pyContains] at h
    by_cases hg : hasKeyB fs g
    · rw [if_pos hg] at h
      rcases List.mem_cons.mp hf with rfl | hf2
      · exact hg
      · exact ih h f hf2
    · rw [if_neg hg] at h
      cases h

lemma checkFields_ok_of_hasKey {L : List String} {fs : List (String × Json)}
    (h : ∀ f ∈ L, hasKeyB fs f = true) :
    checkFields L (Json.obj fs) = Except.ok () := by
  induction L with
  | nil => rfl
  | cons g L ih =>
    rw [checkFields]
    simp only [pyContains]
    rw [if_pos (h g (List.mem_cons_self g L))]
    exact ih (fun f hf => h f (List.mem_cons_of_mem g hf))

lemma checkFields_first_missing {L : List String} {fs : List (String × Json)} {f : String}
    (h : L.find? (fun g => !(hasKeyB fs g)) = some f) :
    checkFields L (Json.obj fs) =
      Except.error (PyErr.valueError ("Missing required field: " ++ f)) := by
  induction L with
  | nil => cases h
  | cons g L ih =>
    rw [List.find?_cons] at h
    rw [checkFields]
    simp only [pyContains]
    by_cases hg : hasKeyB fs g
    · rw [if_pos hg]
      rw [hg] at h
      simp only [Bool.not_true] at h
      exact ih h
    · rw [if_neg hg]
      rw [Bool.not_eq_true] at hg
      rw [hg] at h
      simp only [Bool.not_false] at h
      cases h
      rfl

lemma checkDiseases_ok_of_elemOk {xs : List Json}
    (h : ∀ d ∈ xs, elemObjOk d = true) : checkDiseases xs = Except.ok () := by
  induction xs with
  | nil => rfl
  | cons d ds ih =>
    have hd := h d (List.mem_cons_self d ds)
    cases d with
    | obj gs =>
      simp only [elemObjOk, Bool.and_eq_true] at hd
      rw [checkDiseases]
      simp only [pyContains, hd.1, hd.2, Bool.not_true, Bool.false_eq_true, if_false]
      exact ih (fun e he => h e (List.mem_cons_of_mem _ he))
    | null => simp [elemObjOk] at hd
    | jbool b => simp [elemObjOk] at hd
    | num m e => simp [elemObjOk] at hd
    | inf n => simp [elemObjOk] at hd
    | nan => simp [elemObjOk] at hd
    | str s => simp [elemObjOk] at hd
    | arr ys => simp [elemObjOk] at hd

lemma validate_ok_elim {u w : Json} (h : validate u = Except.ok w) :
    w = u ∧ recordOk u = true := by
  cases u with
  | obj fs =>
    cases hcf : checkFields requiredFields (Json.obj fs) with
    | error e => rw [validate, hcf] at h; cases h
    | ok a =>
      rw [validate, hcf] at h
      simp only [pySubscript] at h
      cases hlk : List.lookup "top_3_possible_diseases" fs with
      | none => rw [hlk] at h; cases h
      | some top =>
        rw [hlk] at h
        cases top with
        | arr xs =>
          cases xs with
          | nil => simp at h
          | cons x xs2 =>
            simp only [List.isEmpty_cons, Bool.false_eq_true, if_false] at h
            cases hcd : checkDiseases (x :: xs2) with
            | error e => rw [hcd] at h; cases h
            | ok b =>
              rw [hcd] at h
              cases h
              refine ⟨rfl, ?_⟩
              rw [recordOk, Bool.and_eq_true]
              constructor
              · rw [List.all_eq_true]
                intro f hf
                exact lookup_isSome_of_hasKeyB (checkFields_ok_hasKey hcf f hf)
              · simp only [jlookup, hlk]
        | null => simp at h
        | jbool b => simp at h
        | num m e => simp at h
        | inf n => simp at h
        | nan => simp at h
        | str s => simp at h
        | obj gs => simp at h
  | null => simp [validate, checkFields, pyContains, requiredFields] at h
  | jbool b => simp [validate, checkFields, pyContains, requiredFields] at h
  | num m e => simp [validate, checkFields, pyContains, requiredFields] at h
  | inf n => simp [validate, checkFields, pyContains, requiredFields] at h
  | nan => simp [validate, checkFields, pyContains, requiredFields] at h
  | str s =>
    cases hcf : checkFields requiredFields (Json.str s) with
    | error e => rw [validate, hcf] at h; cases h
    | ok a => rw [validate, hcf] at h; simp [pySubscript] at h
  | arr xs =>
    cases hcf : checkFields requiredFields (Json.arr xs) with
    | error e => rw [validate, hcf] at h; cases h
    | ok a => rw [validate, hcf] at h; simp [pySubscript] at h

lemma parse_eq_of_loads_some {t : List Char} {v : Json}
    (hj : json_loads (extractText t) = some v) :
    parse_gemini_response t = outcomeOfValidate (validate v) := by
  unfold parse_gemini_response
  rw [hj]

lemma parse_eq_of_loads_none {t : List Char}
    (hj : json_loads (extractText t) = none) :
    parse_gemini_response t = ParseOutcome.failure PyErr.jsonDecodeError := by
  unfold parse_gemini_response
  rw [hj]

lemma parse_success_elim {t : List Char} {w : Json}
    (h : parse_gemini_response t = ParseOutcome.success w) :
    ∃ v, json_loads (extractText t) = some v ∧ validate v = Except.ok w := by
  cases hj : json_loads (extractText t) with
  | none => rw [parse_eq_of_loads_none hj] at h; cases h
  | some v =>
    rw [parse_eq_of_loads_some hj] at h
    cases hv : validate v with
    | ok w2 =>
      rw [hv, outcomeOfValidate] at h
      cases h
      exact ⟨v, rfl, hv⟩
    | error e =>
      rw [hv] at h
      cases e <;> simp [outcomeOfValidate] at h

lemma recordOk_obj_exists {v : Json} (h : recordOk v = true) :
    ∃ fs, v = Json.obj fs := by
  cases v with
  | obj fs => exact ⟨fs, rfl⟩
  | null => simp [recordOk, jlookup, requiredFields] at h
  | jbool b => simp [recordOk, jlookup, requiredFields] at h
  | num m e => simp [recordOk, jlookup, requiredFields] at h
  | inf n => simp [recordOk, jlookup, requiredFields] at h
  | nan => simp [recordOk, jlookup, requiredFields] at h
  | str s => simp [recordOk, jlookup, requiredFields] at h
  | arr xs => simp [recordOk, jlookup, requiredFields] at h

lemma parseDispatch_obj_eq_brace {pm : List Char → Option (List (String × Json) × List Char)}
    {pe : List Char → Option (List Json × List Char)} {c : Char} {cs r : List Char}
    {fs : List (String × Json)}
    (h : parseDispatch pm pe c cs = some (Json.obj fs, r)) : c = openBrace := by
  by_cases hc : c = openBrace
  · exact hc
  exfalso
  rw [parseDispatch.eq_def, if_neg hc] at h
  have closePe : ∀ r2 : List Char,
      (match pe cs with
        | some (xs, rest) => some (Json.arr xs, rest)
        | none => none) = some (Json.obj fs, r2) → False := by
    intro r2 hh
    cases hpe : pe cs with
    | none =>
      simp only [hpe] at hh
      exact Option.noConfusion hh
    | some pr =>
      rcases pr with ⟨xs, rest⟩
      simp only [hpe] at hh
      simp at hh
  by_cases h1 : c = '['
  · rw [if_pos h1] at h
    cases hsk : skipWs cs with
    | nil =>
      simp only [hsk] at h
      exact closePe r h
    | cons c2 r2 =>
      simp only [hsk] at h
      by_cases h2 : c2 = ']'
      · rw [if_pos h2] at h
        simp at h
      · rw [if_neg h2] at h
        exact closePe r h
  rw [if_neg h1] at h
  by_cases h2 : c = '"'
  · rw [if_pos h2] at h
    rcases Option.map_eq_some'.mp h with ⟨a, ha, heq⟩
    simp at heq
  rw [if_neg h2] at h
  by_cases h3 : c = 't'
  · rw [if_pos h3] at h
    rcases Option.map_eq_some'.mp h with ⟨a, ha, heq⟩
    simp at heq
  rw [if_neg h3] at h
  by_cases h4 : c = 'f'
  · rw [if_pos h4] at h
    rcases Option.map_eq_some'.mp h with ⟨a, ha, heq⟩
    simp at heq
  rw [if_neg h4] at h
  by_cases h5 : c = 'n'
  · rw [if_pos h5] at h
    rcases Option.map_eq_some'.mp h with ⟨a, ha, heq⟩
    simp at heq
  rw [if_neg h5] at h
  by_cases h6 : c = 'N'
  · rw [if_pos h6] at h
    rcases Option.map_eq_some'.mp h with ⟨a, ha, heq⟩
    simp at heq
  rw [if_neg h6] at h
  by_cases h7 : c = 'I'
  · rw [if_pos h7] at h
    rcases Option.map_eq_some'.mp h with ⟨a, ha, heq⟩
    simp at heq
  rw [if_neg h7] at h
  by_cases h8 : c = '-'
  · rw [if_pos h8] at h
    by_cases hi : List.isPrefixOf ['I', 'n', 'f', 'i', 'n', 'i', 't', 'y'] cs = true
    · rw [if_pos hi] at h
      simp at h
    · rw [if_neg hi] at h
      cases cs with
      | nil => simp at h
      | cons d cs2 =>
        simp only [] at h
        by_cases hd : d = '0'
        · rw [if_pos hd] at h
          simp [wrapNum] at h
        · rw [if_neg hd] at h
          by_cases hdig : d.isDigit = true
          · rw [if_pos hdig] at h
            simp [wrapNum] at h
          · rw [if_neg hdig] at h
            cases h
  rw [if_neg h8] at h
  by_cases h9 : c = '0'
  · rw [if_pos h9] at h
    simp [wrapNum] at h
  rw [if_neg h9] at h
  by_cases h10 : c.isDigit = true
  · rw [if_pos h10] at h
    simp [wrapNum] at h
  · rw [if_neg h10] at h
    cases h

lemma parseValue_obj_mem_brace {fuel : Nat} {s r : List Char} {fs : List (String × Json)}
    (h : parseValue fuel s = some (Json.obj fs, r)) : openBrace ∈ s := by
  cases fuel with
  | zero => rw [parseValue] at h; cases h
  | succ fuel =>
    rw [parseValue] at h
    cases hsk : skipWs s with
    | nil => rw [hsk] at h; cases h
    | cons c cs =>
      rw [hsk] at h
      have h2 : parseDispatch (parseMembers fuel) (parseElems fuel) c cs =
          some (Json.obj fs, r) := h
      have hc := parseDispatch_obj_eq_brace h2
      subst hc
      exact mem_of_mem_skipWs (by rw [hsk]; exact List.mem_cons_self _ _)

lemma json_loads_obj_mem_brace {s : List Char} {fs : List (String × Json)}
    (h : json_loads s = some (Json.obj fs)) : openBrace ∈ s := by
  unfold json_loads at h
  cases hp : parseValue (2 * s.length + 4) s with
  | none => rw [hp] at h; cases h
  | some pr =>
    rw [hp] at h
    rcases pr with ⟨v, rest⟩
    have h2 : (if skipWs rest = [] then some v else none) = some (Json.obj fs) := h
    by_cases hw : skipWs rest = []
    · rw [if_pos hw] at h2
      cases h2
      exact parseValue_obj_mem_brace hp
    · rw [if_neg hw] at h2
      cases h2

lemma recordOk_fallbackRecord (sym : String) (names : List String) (p1 p2 p3 : Nat) :
    recordOk (fallbackRecord sym names p1 p2 p3) = true := rfl

/-- C1: every record the endpoint actually returns (on any path: validated
model output, the parse-failure error record, or the no-model fallback) has
all five fields present and a non-empty candidates list. -/
theorem predict_record_complete (sym : String) (b64 : Bool) (gem : GeminiOutcome)
    (names : List String) (p1 p2 p3 : Nat) (v : Json)
    (h : predict_json sym b64 gem names p1 p2 p3 = PredictResult.ok v) :
    recordOk v = true := by
  cases b64 with
  | false => rw [predict_json] at h; cases h
  | true =>
    cases gem with
    | raises msg => rw [predict_json] at h; cases h
    | disabled =>
      rw [predict_json] at h
      cases h
      exact recordOk_fallbackRecord sym names p1 p2 p3
    | responds text =>
      rw [predict_json] at h
      cases hp : parse_gemini_response text with
      | success w =>
        simp only [hp] at h
        cases h
        rcases parse_success_elim hp with ⟨u, hu, hval⟩
        rcases validate_ok_elim hval with ⟨rfl, hrec⟩
        exact hrec
      | failure e =>
        simp only [hp] at h
        cases h
        rfl
      | uncaught e =>
        simp only [hp] at h
        cases h

/-- C1 witness: the fallback path at a concrete input returns a complete
record. -/
theorem predict_record_complete_witness :
    recordOk (fallbackRecord "itchy rash" diseaseNames 20 30 40) = true :=
  predict_record_complete "itchy rash" true GeminiOutcome.disabled diseaseNames 20 30 40
    (fallbackRecord "itchy rash" diseaseNames 20 30 40) rfl

/-- C3 (amended): on input with no brace pair, normalization never succeeds;
it returns the decode-branch `None` exactly when the cleaned text is not
valid JSON (valid brace-free JSON instead reaches validation). -/
theorem no_brace_never_succeeds (t : List Char)
    (h : openBrace ∉ t ∧ closeBrace ∉ t) :
    (∀ v, parse_gemini_response t ≠ ParseOutcome.success v) ∧
    (json_loads (extractText t) = none →
      parse_gemini_response t = ParseOutcome.failure PyErr.jsonDecodeError) := by
  constructor
  · intro v hv
    rcases parse_success_elim hv with ⟨u, hu, hval⟩
    rcases validate_ok_elim hval with ⟨rfl, hrec⟩
    rcases recordOk_obj_exists hrec with ⟨fs, rfl⟩
    exact h.1 (mem_of_mem_extractText (json_loads_obj_mem_brace hu))
  · intro hj
    exact parse_eq_of_loads_none hj

/-- C3 witness: at the spec's own malformed example. -/
theorem no_brace_never_succeeds_witness :
    (∀ v, parse_gemini_response "I cannot analyze this image.".data ≠
      ParseOutcome.success v) ∧
    (json_loads (extractText "I cannot analyze this image.".data) = none →
      parse_gemini_response "I cannot analyze this image.".data =
        ParseOutcome.failure PyErr.jsonDecodeError) :=
  no_brace_never_succeeds "I cannot analyze this image.".data (by decide)

/-- C5: whenever the cleaned text parses to a JSON object missing at least one
of the five required fields, normalization returns the `None` of the
`ValueError` branch carrying the `Missing required field` message that names
a missing field (the first one in the fixed check order). -/
theorem missing_field_gives_valueError (t : List Char) (fs : List (String × Json))
    (h1 : json_loads (extractText t) = some (Json.obj fs))
    (h2 : ∃ f ∈ requiredFields, hasKeyB fs f = false) :
    ∃ f ∈ requiredFields, hasKeyB fs f = false ∧
      parse_gemini_response t =
        ParseOutcome.failure (PyErr.valueError ("Missing required field: " ++ f)) := by
  have hs : (requiredFields.find? (fun g => !(hasKeyB fs g))).isSome = true := by
    rw [List.find?_isSome]
    rcases h2 with ⟨f, hf, hkey⟩
    exact ⟨f, hf, by rw [hkey]; rfl⟩
  rcases Option.isSome_iff_exists.mp hs with ⟨f, hfind⟩
  have hmem := List.mem_of_find?_eq_some hfind
  have hkey : hasKeyB fs f = false := by
    have := List.find?_some hfind
    rwa [Bool.not_eq_true'] at this
  refine ⟨f, hmem, hkey, ?_⟩
  rw [parse_eq_of_loads_some h1]
  have hcf := checkFields_first_missing hfind
  rw [validate.eq_def, hcf]
  rfl

/-- C5 witness: the empty object is missing every field; normalization reports
the first one. -/
theorem missing_field_gives_valueError_witness :
    ∃ f ∈ requiredFields, hasKeyB ([] : List (String × Json)) f = false ∧
      parse_gemini_response "\x7b\x7d".data =
        ParseOutcome.failure (PyErr.valueError ("Missing required field: " ++ f)) :=
  missing_field_gives_valueError "\x7b\x7d".data [] rfl
    ⟨"top_3_possible_diseases", by decide, rfl⟩

/-- C2: for every outcome of the random draws (three integers in [20, 50] and
any shuffle of the fixed name list), the fallback record has exactly 3
candidates, their integer confidences sum to exactly 100, and the rounding
remainder is carried by the first candidate. -/
theorem fallback_sums_100 (sym : String) (names : List String) (p1 p2 p3 : Nat)
    (_hp1 : 20 ≤ p1 ∧ p1 ≤ 50) (_hp2 : 20 ≤ p2 ∧ p2 ≤ 50) (_hp3 : 20 ≤ p3 ∧ p3 ≤ 50)
    (_hperm : names.Perm diseaseNames) :
    (candList (fallbackRecord sym names p1 p2 p3)).length = 3 ∧
    ((candList (fallbackRecord sym names p1 p2 p3)).map confOf).sum = 100 ∧
    confOf ((candList (fallbackRecord sym names p1 p2 p3)).getD 0 Json.null) =
      fbRound p1 (p1 + p2 + p3) +
        (100 - (fbRound p1 (p1 + p2 + p3) + fbRound p2 (p1 + p2 + p3) +
          fbRound p3 (p1 + p2 + p3))) ∧
    (candList (fallbackRecord sym names p1 p2 p3)).map nameOf =
      [some (names.getD 0 ""), some (names.getD 1 ""), some (names.getD 2 "")] := by
  have hcl : candList (fallbackRecord sym names p1 p2 p3) =
      [Json.obj [("name", Json.str (names.getD 0 "")),
         ("confidence", Json.num (fbConf1 p1 p2 p3) 0)],
       Json.obj [("name", Json.str (names.getD 1 "")),
         ("confidence", Json.num (fbRound p2 (p1 + p2 + p3)) 0)],
       Json.obj [("name", Json.str (names.getD 2 "")),
         ("confidence", Json.num (fbRound p3 (p1 + p2 + p3)) 0)]] := rfl
  rw [hcl]
  refine ⟨rfl, ?_, ?_, rfl⟩
  · show fbConf1 p1 p2 p3 + (fbRound p2 (p1 + p2 + p3) + (fbRound p3 (p1 + p2 + p3) + 0)) = 100
    rw [fbConf1]
    by_cases hd : fbDiff p1 p2 p3 ≠ 0
    · rw [if_pos hd]
      rw [fbDiff]
      omega
    · rw [if_neg hd]
      rw [fbDiff] at hd
      omega
  · show fbConf1 p1 p2 p3 = _
    rw [fbConf1, fbDiff]
    by_cases hd : (100 : Int) - (fbRound p1 (p1 + p2 + p3) + fbRound p2 (p1 + p2 + p3) +
        fbRound p3 (p1 + p2 + p3)) ≠ 0
    · rw [if_pos hd]
    · rw [if_neg hd]
      omega

/-- C2 witness: a concrete draw. -/
theorem fallback_sums_100_witness :
    (candList (fallbackRecord "s" diseaseNames 20 30 40)).length = 3 ∧
    ((candList (fallbackRecord "s" diseaseNames 20 30 40)).map confOf).sum = 100 ∧
    confOf ((candList (fallbackRecord "s" diseaseNames 20 30 40)).getD 0 Json.null) =
      fbRound 20 90 + (100 - (fbRound 20 90 + fbRound 30 90 + fbRound 40 90)) ∧
    (candList (fallbackRecord "s" diseaseNames 20 30 40)).map nameOf =
      [some (diseaseNames.getD 0 ""), some (diseaseNames.getD 1 ""),
        some (diseaseNames.getD 2 "")] :=
  fallback_sums_100 "s" diseaseNames 20 30 40 (by decide) (by decide) (by decide)
    (List.Perm.refl _)

lemma findPat_append_head_notMem {c0 : Char} {ps a rest : List Char} (ha : c0 ∉ a) :
    findPat (c0 :: ps) (a ++ rest) = (findPat (c0 :: ps) rest).map (· + a.length) := by
  induction a with
  | nil =>
    rw [List.nil_append]
    cases findPat (c0 :: ps) rest <;> simp
  | cons x a ih =>
    rw [List.cons_append, findPat]
    have hx : ¬ (c0 :: ps).isPrefixOf (x :: (a ++ rest)) = true := by
      intro hp
      simp only [List.isPrefixOf, Bool.and_eq_true] at hp
      exact ha (beq_iff_eq.mp hp.1 ▸ List.mem_cons_self x _)
    rw [if_neg hx]
    rw [ih (fun hmem => ha (List.mem_cons_of_mem _ hmem))]
    cases findPat (c0 :: ps) rest <;> simp
    omega

lemma findPat_fence_self (X : List Char) : findPat fenceMarker (fenceMarker ++ X) = some 0 := by
  have hpre : fenceMarker.isPrefixOf (fenceMarker ++ X) = true :=
    List.isPrefixOf_iff_prefix.mpr (List.prefix_append _ _)
  rw [show fenceMarker ++ X =
    '\\' :: backtickChar :: '\\' :: backtickChar :: '\\' :: backtickChar :: X from rfl] at hpre ⊢
  rw [findPat, if_pos hpre]

lemma fence_head :
    fenceMarker = '\\' :: [backtickChar, '\\', backtickChar, '\\', backtickChar] := rfl

lemma dropThroughPat_eq {pat s : List Char} {i : Nat} (h : findPat pat s = some i) :
    dropThroughPat pat s = s.drop (i + pat.length) := by
  unfold dropThroughPat
  rw [h]

lemma takeUntilPat_eq {pat s : List Char} {i : Nat} (h : findPat pat s = some i) :
    takeUntilPat pat s = s.take i := by
  unfold takeUntilPat
  rw [h]

/-- C7 (amended): the fence-stripping step keeps the content between the
first and SECOND marker occurrence, stripping whitespace; content after the
second marker is discarded.  Stated for input decomposed around two marker
occurrences, with the surrounding pieces backslash-free (so they contain no
marker) and no tagged marker present. -/
theorem fence_strip_between_first_and_second (a b c : List Char)
    (ha : '\\' ∉ a) (hb : '\\' ∉ b)
    (hj : containsPat fenceJsonMarker (a ++ fenceMarker ++ b ++ fenceMarker ++ c) = false) :
    fenceStrip (a ++ fenceMarker ++ b ++ fenceMarker ++ c) = pyStrip b := by
  have hfind : findPat fenceMarker (a ++ (fenceMarker ++ (b ++ (fenceMarker ++ c)))) =
      some a.length := by
    rw [fence_head, findPat_append_head_notMem ha, ← fence_head, findPat_fence_self]
    simp
  have hfind2 : findPat fenceMarker (b ++ (fenceMarker ++ c)) = some b.length := by
    rw [fence_head, findPat_append_head_notMem hb, ← fence_head, findPat_fence_self]
    simp
  have hassoc : a ++ fenceMarker ++ b ++ fenceMarker ++ c =
      a ++ (fenceMarker ++ (b ++ (fenceMarker ++ c))) := by simp
  rw [fenceStrip]
  rw [if_neg (by rw [hj]; exact Bool.false_ne_true)]
  rw [if_pos ?_]
  · rw [hassoc, dropThroughPat_eq hfind]
    have hdrop : List.drop (a.length + fenceMarker.length)
        (a ++ (fenceMarker ++ (b ++ (fenceMarker ++ c)))) = b ++ (fenceMarker ++ c) := by
      rw [show a ++ (fenceMarker ++ (b ++ (fenceMarker ++ c))) =
        (a ++ fenceMarker) ++ (b ++ (fenceMarker ++ c)) by simp]
      exact List.drop_left' (by simp)
    rw [hdrop, takeUntilPat_eq hfind2]
    exact congrArg pyStrip (List.take_left b (fenceMarker ++ c))
  · rw [hassoc, containsPat, hfind]
    rfl

/-- C7 witness: a concrete decomposition. -/
theorem fence_strip_between_first_and_second_witness :
    fenceStrip ("x ".data ++ fenceMarker ++ " A ".data ++ fenceMarker ++ " y".data) =
      pyStrip " A ".data :=
  fence_strip_between_first_and_second "x ".data " A ".data " y".data
    (by decide) (by decide) (by decide)

/-- C8 (amended): validation only requires the candidates list to be a
non-empty list of well-shaped candidates (length 3 is never enforced); the
parse-failure record returned to callers has exactly 1 candidate; the
fallback record always has exactly 3. -/
theorem candidate_count_not_enforced :
    (∀ v : Json, schemaNonEmpty v = true → validate v = Except.ok v) ∧
    (candList errorRecord).length = 1 ∧
    (∀ (sym : String) (names : List String) (p1 p2 p3 : Nat),
      (candList (fallbackRecord sym names p1 p2 p3)).length = 3) := by
  refine ⟨?_, rfl, fun _ _ _ _ _ => rfl⟩
  intro v hs
  cases v with
  | obj fs =>
    rw [schemaNonEmpty] at hs
    rcases Bool.and_eq_true_iff.mp hs with ⟨hall, htop⟩
    have hcf := checkFields_ok_of_hasKey (List.all_eq_true.mp hall)
    cases hlk : List.lookup "top_3_possible_diseases" fs with
    | none => rw [hlk] at htop; cases htop
    | some top =>
      rw [hlk] at htop
      cases top with
      | arr xs =>
        rcases Bool.and_eq_true_iff.mp htop with ⟨hne, hel⟩
        rw [Bool.not_eq_true'] at hne
        have hcd := checkDiseases_ok_of_elemOk (List.all_eq_true.mp hel)
        rw [validate.eq_def, hcf]
        simp only [pySubscript, hlk, hne, hcd, Bool.false_eq_true, if_false]
      | null => cases htop
      | jbool b => cases htop
      | num m e => cases htop
      | inf n => cases htop
      | nan => cases htop
      | str s2 => cases htop
      | obj gs => cases htop
  | null => cases hs
  | jbool b => cases hs
  | num m e => cases hs
  | inf n => cases hs
  | nan => cases hs
  | str s2 => cases hs
  | arr xs => cases hs

/-- C8 witness: the one-candidate record is accepted unchanged by validation. -/
theorem candidate_count_not_enforced_witness :
    validate oneCandidateObject = Except.ok oneCandidateObject :=
  candidate_count_not_enforced.1 oneCandidateObject rfl

/-! ## Theorems -/

/-- C6: On the specific example input — the schema-valid JSON object wrapped
in ```` ```json ```` fences with leading and trailing prose —
`parse_gemini_response` succeeds and returns exactly the embedded object.
(The code's fence markers, being backslash-escaped, never fire here; the
first-`\x7b`-to-last-`\x7d` slice does the extraction, and the prose contains
no braces, so the slice is exactly the embedded object.) -/
theorem example_fenced_input_normalizes :
    parse_gemini_response exampleFencedInput.data =
      ParseOutcome.success exampleFencedObject := rfl

/-- C10: `parse_gemini_response` is not total: on input `"42"` the extracted
text parses as the JSON number 42, and the membership test
`field not in parsed` raises a `TypeError` that neither the
`json.JSONDecodeError` handler nor the `ValueError` handler catches, so the
exception escapes instead of producing the `None` failure value. -/
theorem parse_not_total_on_42 :
    parse_gemini_response "42".data =
      ParseOutcome.uncaught (PyErr.typeError "argument of type is not iterable") := rfl

/-- C9: when the `generate_content` call raises, `/predict_json` raises an
HTTP 500 `HTTPException` and returns no record at all — in particular neither
the fallback record nor the parse-error record. -/
theorem predict_500_on_gemini_failure (symptoms msg : String) (names : List String)
    (p1 p2 p3 : Nat) :
    predict_json symptoms true (GeminiOutcome.raises msg) names p1 p2 p3 =
        PredictResult.httpError 500 ("Gemini API error: " ++ msg) ∧
      ∀ v, predict_json symptoms true (GeminiOutcome.raises msg) names p1 p2 p3 ≠
        PredictResult.ok v := by
  refine ⟨rfl, fun v h => ?_⟩
  rw [show predict_json symptoms true (GeminiOutcome.raises msg) names p1 p2 p3 =
    PredictResult.httpError 500 ("Gemini API error: " ++ msg) from rfl] at h
  exact PredictResult.noConfusion h

/-- C3 counterexample: the input `"[]"` contains no `\x7b`/`\x7d` pair, yet
`parse_gemini_response` does not return the `None` of the JSON-decode branch —
the text is valid JSON, so the failure comes from the `ValueError` branch of
the required-field check. -/
theorem no_brace_not_always_decode_error :
    (openBrace ∉ "[]".data ∧ closeBrace ∉ "[]".data) ∧
      parse_gemini_response "[]".data =
        ParseOutcome.failure
          (PyErr.valueError "Missing required field: top_3_possible_diseases") ∧
      parse_gemini_response "[]".data ≠ ParseOutcome.failure PyErr.jsonDecodeError := by
  refine ⟨by decide, rfl, fun h => ?_⟩
  rw [show parse_gemini_response "[]".data =
    ParseOutcome.failure
      (PyErr.valueError "Missing required field: top_3_possible_diseases") from rfl] at h
  exact PyErr.noConfusion (ParseOutcome.failure.inj h)

/-- C4 (code bug): a schema-valid object wrapped in a real ```` ```json ````
fence with trailing prose that happens to contain a `\x7d`.  The docstring
says the function handles JSON wrapped in markdown code blocks, but the fence
markers in the code are the backslash-escaped literals `\`\`\`json` / `\`\`\``
(invalid Python escapes kept verbatim), which never match a real fence; the
brace slice then runs from the object's opening brace to the stray `\x7d` in
the prose, and `json.loads` fails, so the function returns `None` instead of
the embedded object. -/
theorem fenced_object_lost_to_stray_brace :
    parse_gemini_response fencedWithStrayBrace.data =
      ParseOutcome.failure PyErr.jsonDecodeError := rfl

/-- C7 counterexample: on text containing three of the code's fence markers,
the fence-stripping step keeps only the content between the first and second
markers (`A`), not the content between the first and last markers
(`A`-marker-`B`). -/
theorem fence_strip_cuts_at_second_marker :
    fenceStrip (fenceMarker ++ ['A'] ++ fenceMarker ++ ['B'] ++ fenceMarker) = ['A'] ∧
      (['A'] : List Char) ≠ ['A'] ++ fenceMarker ++ ['B'] := by
  exact ⟨by decide, by decide⟩

/-- C8 counterexample: a record returned to the caller with exactly one
candidate, not three — when parsing fails, `/predict_json` returns the
analysis-error record, whose candidates list has length 1. -/
theorem returned_record_with_one_candidate :
    predict_json "s" true (GeminiOutcome.responds "oops".data) [] 0 0 0 =
        PredictResult.ok errorRecord ∧
      (candList errorRecord).length = 1 ∧ (candList errorRecord).length ≠ 3 := by
  exact ⟨rfl, by decide, by decide⟩

end AfiyahMed
